import Mathlib

/-!
Verification development for a pedagogical account-based blockchain node
(block engine, account/state trie, transaction model, stack VM).

The Rust sources are embedded shallowly:

* machine integers are `Nat`/`Int`; where two's-complement wrap-around is
  observable the reduction `% 2^w` is applied explicitly (release-mode
  wrapping semantics);
* every Rust `panic!`/`unwrap`/`expect` is modelled by `Option`/`Except`
  (`none` / `.error` = the call panics and returns no value);
* the external crates (secp256k1, serde_json, sha3/Keccak256, uuid, rand)
  are external collaborators of the repository.  They are modelled as
  follows, keeping exactly the structure the repository relies on:
  - serde_json serialisation is a concrete injective encoding with a
    verified decoder (`serAccount`/`deserAccount` for accounts, the `s*`
    family for hashing inputs);
  - `Keccak256` is replaced by the injective hex expansion of its input
    (`keccakish`); the character-sort canonicalisation performed by
    `sort_characters` *before* hashing is kept verbatim.  Equalities of
    model hashes therefore correspond to equalities of keccak inputs,
    and a model hash is always lexicographically below the difficulty-1
    target `"f"*64`, as a real keccak digest is (up to the 16^-64 event
    of an all-`f` digest);
  - key generation / `Uuid` / the mining nonce are sources of randomness;
    functions that draw them in Rust take them as explicit parameters
    here (`genesisBlock` takes the drawn beneficiary and the current
    time, validators take the parameters of the fresh genesis block they
    construct internally);
  - an ECDSA signature is modelled as the signed message together with
    the signer (ideal EUF-CMA crypto): `verifySignature` accepts exactly
    the signatures produced by `Account::sign` on the same data.
-/

/-! ## Two's-complement helpers -/

/-- `2^64`, the modulus of `u64`/`usize` arithmetic. -/
def U64MOD : Nat := 2 ^ 64

/-- Wrapping `u64` addition (release semantics of `+` on `u64`). -/
def add64 (a b : Nat) : Nat := (a + b) % U64MOD

/-- Wrapping `u64`/`usize` subtraction (release semantics of `-`). -/
def sub64 (a b : Nat) : Nat := (a + U64MOD - b % U64MOD) % U64MOD

/-- Wrapping `i32` normalisation: reduces an unbounded integer to the
`i32` range, as release-mode Rust arithmetic does. -/
def wrap32 (v : Int) : Int := (v + 2 ^ 31) % (2 ^ 32) - 2 ^ 31

/-- The Rust cast `i32 as usize` (sign-extension to 64 bits). -/
def castUsize (v : Int) : Nat := (v % (U64MOD : Int)).toNat

/-! ## `sort_characters` and the hash model

`keccak_hash(x)` in `src/rs/src/util/mod.rs` is
`hex(keccak256(chars(json(x)).sorted().rev()))`.  The model keeps the
serialise-and-sort-descending pipeline and replaces the keccak256
permutation by the (injective) hex expansion of its input string. -/

/-- Descending merge of two descending `Char` lists; `fuel` bounds the
recursion and is always supplied as the sum of the lengths. -/
def mergeDesc : Nat → List Char → List Char → List Char
  | 0, a, b => a ++ b
  | _ + 1, [], b => b
  | _ + 1, a :: as, [] => a :: as
  | fuel + 1, a :: as, b :: bs =>
    if b ≤ a then a :: mergeDesc fuel as (b :: bs)
    else b :: mergeDesc fuel (a :: as) bs

/-- One bottom-up merge pass. -/
def mergePassDesc : List (List Char) → List (List Char)
  | a :: b :: rest => mergeDesc (a.length + b.length) a b :: mergePassDesc rest
  | ls => ls

/-- Repeated merge passes; `fuel` bounds the number of passes. -/
def mergeAllDesc : Nat → List (List Char) → List Char
  | 0, ls => ls.foldr (· ++ ·) []
  | _ + 1, [] => []
  | _ + 1, [l] => l
  | fuel + 1, ls => mergeAllDesc fuel (mergePassDesc ls)

/-- The characters of a string sorted in descending order:
`s.chars().sorted().rev().collect()` of `sort_characters`. -/
def sortDesc (l : List Char) : List Char :=
  mergeAllDesc l.length (l.map fun c => [c])

/-- Lowercase hex digit for a nibble. -/
def hexDigit (n : Nat) : Char := Nat.digitChar (n % 16)

/-- Hex expansion of a character list (two lowercase hex digits per
character); stands in for the keccak256 digest of the list. -/
def hexEncode (l : List Char) : List Char :=
  l.foldr (fun c acc => hexDigit (c.toNat / 16) :: hexDigit c.toNat :: acc) []

/-- Model of `keccak_hash` applied to an already serialised payload:
sort the characters descending, then "hash" (hex-expand). -/
def keccakish (s : String) : String := String.mk (hexEncode (sortDesc s.data))

/-! ## The serde_json model: a verified injective codec

`State::put_account` stores `serde_json::to_string(&account)` in the
state trie and `State::get_account` parses it back.  The codec below is
the model of that serialisation: `serAccount` is injective and
`deserAccount` is its verified inverse. -/

/-- Unary encoding of a `Nat` (`'1'^n ++ "0"`). -/
def serN : Nat → List Char
  | 0 => ['0']
  | n + 1 => '1' :: serN n

/-- Decoder for `serN`; returns the value and the unread rest. -/
def parseN : List Char → Option (Nat × List Char)
  | '0' :: rest => some (0, rest)
  | '1' :: rest => (parseN rest).map fun (n, r) => (n + 1, r)
  | _ => none

/-- Char-tagged encoding of a character list (self-delimiting). -/
def serS : List Char → List Char
  | [] => ['E']
  | c :: rest => 'C' :: c :: serS rest

/-- Decoder for `serS`. -/
def parseS : List Char → Option (List Char × List Char)
  | 'E' :: rest => some ([], rest)
  | 'C' :: c :: rest => (parseS rest).map fun (s, r) => (c :: s, r)
  | _ => none

/-- Sign-tagged encoding of an `Int`. -/
def serZ (v : Int) : List Char :=
  if v < 0 then '-' :: serN (-v).toNat else '+' :: serN v.toNat

/-- Decoder for `serZ`. -/
def parseZ : List Char → Option (Int × List Char)
  | '-' :: rest => (parseN rest).map fun (n, r) => (-(n : Int), r)
  | '+' :: rest => (parseN rest).map fun (n, r) => ((n : Int), r)
  | _ => none

/-- Encoding of an optional string (`code_hash`). -/
def serOptS : Option String → List Char
  | none => ['N']
  | some s => 'S' :: serS s.data

/-- Decoder for `serOptS`. -/
def parseOptS : List Char → Option (Option String × List Char)
  | 'N' :: rest => some (none, rest)
  | 'S' :: rest => (parseS rest).map fun (s, r) => (some (String.mk s), r)
  | _ => none

theorem parseN_serN (n : Nat) (rest : List Char) :
    parseN (serN n ++ rest) = some (n, rest) := by
  induction n with
  | zero => rfl
  | succ n ih => simp [serN, parseN, ih]

theorem parseS_serS (s : List Char) (rest : List Char) :
    parseS (serS s ++ rest) = some (s, rest) := by
  induction s with
  | nil => rfl
  | cons c cs ih => simp [serS, parseS, ih]

theorem parseZ_serZ (v : Int) (rest : List Char) :
    parseZ (serZ v ++ rest) = some (v, rest) := by
  unfold serZ
  by_cases h : v < 0
  · have h1 : ((-v).toNat : Int) = -v := Int.toNat_of_nonneg (by omega)
    simp [h, parseZ, parseN_serN, h1]
  · have h1 : (v.toNat : Int) = v := Int.toNat_of_nonneg (by omega)
    simp [h, parseZ, parseN_serN, h1]

theorem parseOptS_serOptS (o : Option String) (rest : List Char) :
    parseOptS (serOptS o ++ rest) = some (o, rest) := by
  cases o with
  | none => rfl
  | some s =>
    simp [serOptS, parseOptS, parseS_serS]

/-! ## Opcodes (`src/rs/src/interpreter/mod.rs`) -/

/-- The VM opcode set; `VAL` carries an `i32` payload. -/
inductive OPCODE where
  | STOP | PUSH
  | VAL (v : Int)
  | ADD | SUB | DIV | MUL
  | EQ | LT | GT | AND | OR
  | JUMP | JUMPI | STORE | LOAD
deriving DecidableEq, Repr

/-- `extract_val_from_opcode`: the payload of a `VAL`, failure otherwise. -/
def extract_val_from_opcode : OPCODE → Option Int
  | .VAL v => some v
  | _ => none

/-- Serialisation of one opcode (part of the serde_json model). -/
def serOp : OPCODE → List Char
  | .STOP => ['s']
  | .PUSH => ['p']
  | .VAL v => 'v' :: serZ v
  | .ADD => ['a']
  | .SUB => ['b']
  | .DIV => ['d']
  | .MUL => ['m']
  | .EQ => ['e']
  | .LT => ['l']
  | .GT => ['g']
  | .AND => ['n']
  | .OR => ['o']
  | .JUMP => ['j']
  | .JUMPI => ['i']
  | .STORE => ['t']
  | .LOAD => ['r']

/-- Decoder for `serOp`. -/
def parseOp : List Char → Option (OPCODE × List Char)
  | [] => none
  | c :: rest =>
    if c = 's' then some (.STOP, rest)
    else if c = 'p' then some (.PUSH, rest)
    else if c = 'v' then (parseZ rest).map fun (v, r) => (OPCODE.VAL v, r)
    else if c = 'a' then some (.ADD, rest)
    else if c = 'b' then some (.SUB, rest)
    else if c = 'd' then some (.DIV, rest)
    else if c = 'm' then some (.MUL, rest)
    else if c = 'e' then some (.EQ, rest)
    else if c = 'l' then some (.LT, rest)
    else if c = 'g' then some (.GT, rest)
    else if c = 'n' then some (.AND, rest)
    else if c = 'o' then some (.OR, rest)
    else if c = 'j' then some (.JUMP, rest)
    else if c = 'i' then some (.JUMPI, rest)
    else if c = 't' then some (.STORE, rest)
    else if c = 'r' then some (.LOAD, rest)
    else none

/-- Serialisation of a code sequence. -/
def serOps : List OPCODE → List Char
  | [] => ['Z']
  | op :: rest => 'O' :: (serOp op ++ serOps rest)

/-- Decoder for `serOps`; fuelled by the list itself. -/
def parseOps : Nat → List Char → Option (List OPCODE × List Char)
  | _, 'Z' :: rest => some ([], rest)
  | fuel + 1, 'O' :: rest =>
    (parseOp rest).bind fun (op, r) =>
      (parseOps fuel r).map fun (ops, r') => (op :: ops, r')
  | _, _ => none

theorem parseOp_serOp (op : OPCODE) (rest : List Char) :
    parseOp (serOp op ++ rest) = some (op, rest) := by
  cases op <;> first
    | rfl
    | simp [serOp, parseOp, parseZ_serZ]

theorem parseOps_serOps (ops : List OPCODE) (rest : List Char) :
    ∀ fuel, ops.length ≤ fuel →
      parseOps fuel (serOps ops ++ rest) = some (ops, rest) := by
  induction ops with
  | nil => intro fuel _; cases fuel <;> rfl
  | cons op ops ih =>
    intro fuel hle
    cases fuel with
    | zero => simp at hle
    | succ fuel =>
      have hops : ops.length ≤ fuel := by simpa using hle
      simp [serOps, parseOps, parseOp_serOp, ih fuel hops]

/-! ## Accounts (`src/rs/src/account/mod.rs`) -/

/-- `PublicAccount`: the public face of an account.  The address is the
compressed-hex form of the secp256k1 public key (the model identifies a
public key with that hex string). -/
structure PublicAccount where
  address : String
  balance : Nat
  code : List OPCODE
  code_hash : Option String
deriving DecidableEq, Repr

/-- serde_json serialisation of a `PublicAccount` (the string stored in
the state trie by `State::put_account`). -/
def serAccount (a : PublicAccount) : List Char :=
  serS a.address.data ++ serN a.balance ++ serOps a.code ++ serOptS a.code_hash

/-- serde_json deserialisation of a `PublicAccount`
(`State::get_account`); fails (= Rust panic) on any non-account string. -/
def deserAccount (s : String) : Option PublicAccount :=
  (parseS s.data).bind fun (addr, r1) =>
    (parseN r1).bind fun (bal, r2) =>
      (parseOps r2.length r2).bind fun (code, r3) =>
        (parseOptS r3).bind fun (hash, r4) =>
          if r4.isEmpty then
            some ⟨String.mk addr, bal, code, hash⟩
          else none

/-- `serOps` never produces more characters than needed: a length bound
used to fuel its decoder. -/
theorem serOps_length_ge (ops : List OPCODE) (rest : List Char) :
    ops.length ≤ (serOps ops ++ rest).length := by
  induction ops with
  | nil => simp [serOps]
  | cons op ops ih =>
    simp only [serOps, List.cons_append, List.length_cons, List.append_assoc,
      List.length_append]
    have := ih
    simp [List.length_append] at this ⊢
    omega

/-- The account codec round-trips: the model `State::get_account` parses
back exactly what `State::put_account` serialised. -/
theorem deserAccount_serAccount (a : PublicAccount) :
    deserAccount (String.mk (serAccount a)) = some a := by
  have h3 : parseOptS (serOptS a.code_hash) = some (a.code_hash, []) := by
    simpa using parseOptS_serOptS a.code_hash []
  unfold deserAccount serAccount
  simp only [List.append_assoc]
  rw [parseS_serS]
  simp only [Option.some_bind]
  rw [parseN_serN]
  simp only [Option.some_bind]
  rw [parseOps_serOps _ _ _ (serOps_length_ge a.code (serOptS a.code_hash))]
  simp only [Option.some_bind]
  rw [h3]
  simp only [Option.some_bind, List.isEmpty_nil, if_true]

/-! ## The radix trie (`src/rs/src/store/trie.rs`)

`Node` holds a `String` value and a `HashMap<char, Node>` of children.
The child map is modelled as an association list (`ChildMap`); the map
order never reaches a hash because `sort_characters` canonicalises the
serialised form, and in the model the order is deterministic anyway. -/

mutual
/-- A trie node: `value` plus children indexed by `char`. -/
inductive Node where
  | mk : (value : String) → (child_map : ChildMap) → Node

/-- Association list from `char` to child node (`HashMap<char, Node>`). -/
inductive ChildMap where
  | nil : ChildMap
  | cons : Char → Node → ChildMap → ChildMap
end

/-- The value stored at a node. -/
def Node.value : Node → String
  | .mk v _ => v

/-- The child map of a node. -/
def Node.child_map : Node → ChildMap
  | .mk _ m => m

/-- `HashMap::get`: the child at `c`, if any. -/
def ChildMap.find : ChildMap → Char → Option Node
  | .nil, _ => none
  | .cons c' n rest, c => if c' = c then some n else rest.find c

/-- `HashMap::insert`: replace the binding at `c` (or add it). -/
def ChildMap.insert : ChildMap → Char → Node → ChildMap
  | .nil, c, n => .cons c n .nil
  | .cons c' n' rest, c, n =>
    if c' = c then .cons c n rest else .cons c' n' (rest.insert c n)

/-- `Trie::get`, walking one character at a time: a missing child means
absent, otherwise the terminal node's value (possibly `""`). -/
def getNode : Node → List Char → Option String
  | n, [] => some n.value
  | n, c :: cs =>
    match n.child_map.find c with
    | none => none
    | some child => getNode child cs

/-- `Trie::put`'s walk: create missing children along `key`, then set the
terminal node's value. -/
def putNode : Node → List Char → String → Node
  | n, [], v => .mk v n.child_map
  | n, c :: cs, v =>
    let child := match n.child_map.find c with
      | none => Node.mk "" .nil
      | some child => child
    Node.mk n.value (n.child_map.insert c (putNode child cs v))

mutual
/-- serde_json serialisation of a `Node` (feeds the root hash). -/
def serNode : Node → List Char
  | .mk v m => '{' :: '"' :: v.data ++ '"' :: serChildMap m ++ ['}']

/-- serde_json serialisation of a child map. -/
def serChildMap : ChildMap → List Char
  | .nil => ['.']
  | .cons c n rest => ',' :: c :: serNode n ++ serChildMap rest
end

/-- `keccak_hash(&node)`. -/
def keccakNode (n : Node) : String := keccakish (String.mk (serNode n))

/-- `Trie`: head node plus the cached `root_hash`. -/
structure Trie where
  head : Node
  root_hash : String

/-- `Trie::new()`: empty head, hash regenerated. -/
def Trie.new : Trie :=
  let head := Node.mk "" .nil
  { head := head, root_hash := keccakNode head }

/-- `Trie::get`. -/
def Trie.get (t : Trie) (key : String) : Option String :=
  getNode t.head key.data

/-- `Trie::put`: walk/insert, then regenerate the root hash. -/
def Trie.put (t : Trie) (key value : String) : Trie :=
  let head := putNode t.head key.data value
  { head := head, root_hash := keccakNode head }

/-! ### Trie lemmas -/

theorem ChildMap.find_insert_self : ∀ (m : ChildMap) (c : Char) (n : Node),
    (m.insert c n).find c = some n
  | .nil, c, n => by simp [ChildMap.insert, ChildMap.find]
  | .cons c' n' rest, c, n => by
    by_cases h : c' = c
    · simp [ChildMap.insert, ChildMap.find, h]
    · simp [ChildMap.insert, ChildMap.find, h,
        ChildMap.find_insert_self rest c n]

theorem ChildMap.find_insert_ne : ∀ (m : ChildMap) (c c' : Char) (n : Node),
    c ≠ c' → (m.insert c n).find c' = m.find c'
  | .nil, c, c', n, h => by simp [ChildMap.insert, ChildMap.find, h]
  | .cons c'' n'' rest, c, c', n, h => by
    by_cases h2 : c'' = c
    · subst h2
      simp [ChildMap.insert, ChildMap.find, h]
    · simp [ChildMap.insert, ChildMap.find, h2,
        ChildMap.find_insert_ne rest c c' n h]

theorem ChildMap.insert_insert_self : ∀ (m : ChildMap) (c : Char) (n n' : Node),
    (m.insert c n').insert c n = m.insert c n
  | .nil, c, n, n' => by simp [ChildMap.insert]
  | .cons c'' n'' rest, c, n, n' => by
    by_cases h : c'' = c
    · simp [ChildMap.insert, h]
    · simp [ChildMap.insert, h, ChildMap.insert_insert_self rest c n n']

/-- Reading back the key just written returns the written value. -/
theorem getNode_putNode_self (key : List Char) :
    ∀ (n : Node) (v : String), getNode (putNode n key v) key = some v := by
  induction key with
  | nil => intro n v; simp [putNode, getNode, Node.value]
  | cons c cs ih =>
    intro n v
    simp only [putNode, getNode, Node.child_map, ChildMap.find_insert_self]
    exact ih _ v

/-- Writing one key does not disturb any other key that already holds a
value (a fresh prefix of the written key can change from absent to
`some ""`, exactly as in the Rust trie, hence the presence premise). -/
theorem getNode_putNode_present (key : List Char) :
    ∀ (key' : List Char) (n : Node) (v w : String), key ≠ key' →
      getNode n key' = some w → getNode (putNode n key v) key' = some w := by
  induction key with
  | nil =>
    intro key' n v w hne hget
    cases key' with
    | nil => exact absurd rfl hne
    | cons c' cs' =>
      cases n with
      | mk val m => simpa [putNode, getNode, Node.child_map] using hget
  | cons c cs ih =>
    intro key' n v w hne hget
    cases key' with
    | nil =>
      cases n with
      | mk val m => simpa [putNode, getNode, Node.value] using hget
    | cons c' cs' =>
      cases n with
      | mk val m =>
        by_cases hc : c = c'
        · subst hc
          have hcs : cs ≠ cs' := fun h => hne (by rw [h])
          simp only [getNode, Node.child_map] at hget
          cases hfind : m.find c with
          | none => rw [hfind] at hget; cases hget
          | some child =>
            rw [hfind] at hget
            simp only [putNode, getNode, Node.child_map, hfind,
              ChildMap.find_insert_self]
            exact ih cs' child v w hcs hget
        · simp only [getNode, Node.child_map] at hget
          simp only [putNode, getNode, Node.child_map,
            ChildMap.find_insert_ne _ _ _ _ hc]
          exact hget

/-- Writing the same key/value twice is the same as writing it once. -/
theorem putNode_putNode_self (key : List Char) :
    ∀ (n : Node) (v : String), putNode (putNode n key v) key v = putNode n key v := by
  induction key with
  | nil => intro n v; simp [putNode, Node.child_map]
  | cons c cs ih =>
    intro n v
    cases n with
    | mk val m =>
      simp only [putNode, Node.child_map, Node.value, ChildMap.find_insert_self]
      rw [ih, ChildMap.insert_insert_self]

/-! ## The VM interpreter (`src/rs/src/interpreter/mod.rs`)

The Rust `while` loop counts iterations in `execution_count` and panics
once the count exceeds `EXECUTION_LIMIT`; the model carries the
remaining iterations as structural fuel (`fuel = EXECUTION_LIMIT -
execution_count`).  `gas_used`, a loop local in Rust, lives in the
interpreter record.  Every interpreter panic is a `VMErr`. -/

/-- `EXECUTION_LIMIT`. -/
def EXECUTION_LIMIT : Nat := 10000

/-- `EVMRetVal`. -/
structure EVMRetVal where
  ret_val : OPCODE
  gas_used : Nat
deriving DecidableEq, Repr

/-- The panics `run_code`/`jump` can raise. -/
inductive VMErr where
  | executionLimit   -- execution limit of 10000 exceeded
  | stackUnderflow   -- pop on empty stack
  | pushAtEnd        -- push instruction cannot be last
  | notAVal          -- extract_val_from_opcode on a non-VAL
  | badJump          -- jump to non-existent destination
  | divFail          -- division by zero / i32 division overflow
  | loadMissing      -- LOAD key absent from the storage trie
  | parseFail        -- stored value does not parse as i32
  | emptyStack       -- final ret_val read from an empty stack
deriving DecidableEq, Repr

/-- `Interpreter` state: the stack top is the list head. -/
structure Interp where
  program_counter : Nat
  stack : List OPCODE
  code : List OPCODE
  gas_used : Nat
deriving DecidableEq, Repr

/-- The final `ret_val` read `self.stack[self.stack.len() - 1]` (a panic
on an empty stack). -/
def finishVM (c : Interp) (t : Trie) : Except VMErr (EVMRetVal × Trie) :=
  match c.stack with
  | [] => .error .emptyStack
  | v :: _ => .ok (⟨v, c.gas_used⟩, t)

/-- `value.parse::<i32>()`. -/
def parseI32 (s : String) : Option Int :=
  match s.toInt? with
  | some v => if -2 ^ 31 ≤ v ∧ v < 2 ^ 31 then some v else none
  | none => none

/-- Outcome of one loop iteration. -/
inductive StepOut where
  | next : Interp → Trie → StepOut
  | halt : Except VMErr (EVMRetVal × Trie) → StepOut

/-- One iteration of the `while` loop body (assuming
`program_counter < code.len()`).  The end-of-loop `program_counter += 1`
is folded into each branch; the `VAL` arm's `continue` skips it. -/
def stepVM (c : Interp) (t : Trie) : StepOut :=
  match c.code.get? c.program_counter with
  | none => .halt (finishVM c t)
  | some op =>
    match op with
    | .VAL _ => .next c t
    | .STOP => .halt (finishVM c t)
    | .PUSH =>
      let pc' := c.program_counter + 1
      match c.code.get? pc' with
      | none => .halt (.error .pushAtEnd)
      | some pushed =>
        .next { c with program_counter := add64 pc' 1,
                       stack := pushed :: c.stack } t
    | .JUMP =>
      match c.stack with
      | [] => .halt (.error .stackUnderflow)
      | d :: rest =>
        match extract_val_from_opcode d with
        | none => .halt (.error .notAVal)
        | some dv =>
          let dest := castUsize dv
          if c.code.length < dest then .halt (.error .badJump)
          else .next { c with program_counter := add64 (sub64 dest 1) 1,
                              stack := rest, gas_used := c.gas_used + 2 } t
    | .JUMPI =>
      match c.stack with
      | [] => .halt (.error .stackUnderflow)
      | cond :: rest =>
        match cond with
        | .VAL 1 =>
          match rest with
          | [] => .halt (.error .stackUnderflow)
          | d :: rest2 =>
            match extract_val_from_opcode d with
            | none => .halt (.error .notAVal)
            | some dv =>
              let dest := castUsize dv
              if c.code.length < dest then .halt (.error .badJump)
              else .next { c with program_counter := add64 (sub64 dest 1) 1,
                                  stack := rest2, gas_used := c.gas_used + 2 } t
        | _ =>
          .next { c with program_counter := add64 c.program_counter 1,
                         stack := rest, gas_used := c.gas_used + 2 } t
    | .STORE =>
      match c.stack with
      | key :: value :: rest =>
        match extract_val_from_opcode key, extract_val_from_opcode value with
        | some k, some v =>
          .next { c with program_counter := add64 c.program_counter 1,
                         stack := .VAL 999 :: rest,
                         gas_used := c.gas_used + 5 }
                (t.put (toString k) (toString v))
        | _, _ => .halt (.error .notAVal)
      | _ => .halt (.error .stackUnderflow)
    | .LOAD =>
      match c.stack with
      | [] => .halt (.error .stackUnderflow)
      | key :: rest =>
        match extract_val_from_opcode key with
        | none => .halt (.error .notAVal)
        | some k =>
          match t.get (toString k) with
          | none => .halt (.error .loadMissing)
          | some s =>
            match parseI32 s with
            | none => .halt (.error .parseFail)
            | some v =>
              .next { c with program_counter := add64 c.program_counter 1,
                             stack := .VAL v :: rest,
                             gas_used := c.gas_used + 5 } t
    | _ =>
      -- ADD/SUB/DIV/MUL/EQ/LT/GT/AND/OR: pop a, pop b, push op(a, b)
      match c.stack with
      | a :: b :: rest =>
        match extract_val_from_opcode a, extract_val_from_opcode b with
        | some av, some bv =>
          let res : Except VMErr Int :=
            match op with
            | .ADD => .ok (wrap32 (av + bv))
            | .SUB => .ok (wrap32 (av - bv))
            | .MUL => .ok (wrap32 (av * bv))
            | .DIV =>
              if bv = 0 ∨ (av = -(2 ^ 31) ∧ bv = -1) then .error .divFail
              else .ok (av.tdiv bv)
            | .EQ => .ok (if av = bv then 1 else 0)
            | .LT => .ok (if av < bv then 1 else 0)
            | .GT => .ok (if bv < av then 1 else 0)
            | .AND => .ok (if av = 0 ∨ bv = 0 then 0 else 1)
            | _ => .ok (if av ≠ 0 ∨ bv ≠ 0 then 1 else 0)  -- OR
          match res with
          | .error e => .halt (.error e)
          | .ok rv =>
            .next { c with program_counter := add64 c.program_counter 1,
                           stack := .VAL rv :: rest,
                           gas_used := c.gas_used + 1 } t
        | _, _ => .halt (.error .notAVal)
      | _ => .halt (.error .stackUnderflow)

/-- The `while` loop: `fuel` is the number of iterations still allowed
before `execution_count` exceeds `EXECUTION_LIMIT`. -/
def loopVM : Nat → Interp → Trie → Except VMErr (EVMRetVal × Trie)
  | fuel, c, t =>
    if c.program_counter < c.code.length then
      match fuel with
      | 0 => .error .executionLimit
      | fuel + 1 =>
        match stepVM c t with
        | .halt r => r
        | .next c' t' => loopVM fuel c' t'
    else finishVM c t

/-- `Interpreter::run_code` on a fresh interpreter, returning the result
together with the (possibly mutated) storage trie. -/
def run_code (code : List OPCODE) (t : Trie) : Except VMErr (EVMRetVal × Trie) :=
  loopVM EXECUTION_LIMIT ⟨0, [], code, 0⟩ t

/-- Limit-free iteration: `some` means the loop body has executed `n`
times and the program counter is still inside the code (the loop would
run again). -/
def iterVM : Nat → Interp → Trie → Option (Interp × Trie)
  | 0, c, t => if c.program_counter < c.code.length then some (c, t) else none
  | n + 1, c, t =>
    if c.program_counter < c.code.length then
      match stepVM c t with
      | .halt _ => none
      | .next c' t' => iterVM n c' t'
    else none

/-- A run that is still going after `n` unbounded steps exhausts a fuel
budget of `n` with the execution-limit error. -/
theorem loopVM_of_iterVM :
    ∀ (n : Nat) (c : Interp) (t : Trie), (iterVM n c t).isSome →
      loopVM n c t = .error .executionLimit := by
  intro n
  induction n with
  | zero =>
    intro c t h
    unfold iterVM at h
    unfold loopVM
    by_cases hpc : c.program_counter < c.code.length
    · simp [hpc]
    · simp [hpc] at h
  | succ n ih =>
    intro c t h
    unfold iterVM at h
    unfold loopVM
    by_cases hpc : c.program_counter < c.code.length
    · simp only [hpc, if_true] at h ⊢
      cases hstep : stepVM c t with
      | halt r => rw [hstep] at h; simp at h
      | next c' t' => rw [hstep] at h; exact ih c' t' h
    · simp [hpc] at h

/-! ## Transactions (`src/rs/src/transaction/tx.rs`) -/

/-- `MINING_REWARD`. -/
def MINING_REWARD : Nat := 50

/-- `TxType`. -/
inductive TxType where
  | CreateAccount | Transact | MiningReward
deriving DecidableEq, Repr

/-- `TxData`. -/
structure TxData where
  tx_type : TxType
  account_data : Option PublicAccount
deriving DecidableEq, Repr

/-- `UnsignedTx`; the uuid is modelled as a `Nat`. -/
structure UnsignedTx where
  id : Nat
  from_ : Option String
  to_ : Option String
  value : Nat
  data : TxData
  gas_limit : Nat
deriving DecidableEq, Repr

/-- An ECDSA signature, modelled as signer plus signed message (ideal
crypto: verification succeeds exactly for the signer's signature on the
same message). -/
structure Signature where
  signer : String
  message : String
deriving DecidableEq, Repr

/-- `Transaction`. -/
structure Transaction where
  unsigned_tx : UnsignedTx
  signature : Option Signature
deriving DecidableEq, Repr

/-- `Account::verify_signature`. -/
def verify_signature (data : String) (sig : Signature) (public_key : String) : Bool :=
  sig.signer = public_key ∧ sig.message = data

/-! serde_json serialisation of transactions and blocks (hash inputs).
Numbers are rendered with `toString`, matching Rust's `{}`. -/

/-- Serialisation of a `PublicAccount` as a `String` (the exact string
`put_account` stores and `account_data` embeds). -/
def sAccount (a : PublicAccount) : String := String.mk (serAccount a)

/-- Serialisation of an optional address. -/
def sOptAddr : Option String → String
  | none => "N"
  | some s => "S" ++ String.mk (serS s.data)

/-- Serialisation of `TxData`. -/
def sTxData (d : TxData) : String :=
  "D(" ++ (match d.tx_type with
           | .CreateAccount => "CA"
           | .Transact => "TX"
           | .MiningReward => "MR") ++ ","
       ++ (match d.account_data with
           | none => "N"
           | some a => "S" ++ sAccount a) ++ ")"

/-- `serde_json::to_string(&tx.unsigned_tx)`: the string that is signed
and verified. -/
def sUnsignedTx (u : UnsignedTx) : String :=
  "U(" ++ toString u.id ++ "," ++ sOptAddr u.from_ ++ "," ++ sOptAddr u.to_
       ++ "," ++ toString u.value ++ "," ++ sTxData u.data ++ ","
       ++ toString u.gas_limit ++ ")"

/-- Serialisation of an optional signature. -/
def sOptSig : Option Signature → String
  | none => "N"
  | some s => "S(" ++ String.mk (serS s.signer.data) ++ ","
                   ++ String.mk (serS s.message.data) ++ ")"

/-- `serde_json::to_string(&tx)` (stored in the tx trie). -/
def sTx (t : Transaction) : String :=
  "T(" ++ sUnsignedTx t.unsigned_tx ++ "," ++ sOptSig t.signature ++ ")"

/-- `keccak_hash(&tx)` (the tx-trie key in `build_trie`). -/
def keccakTx (t : Transaction) : String := keccakish (sTx t)

/-! ## State (`src/rs/src/store/state.rs`) -/

/-- Assoc-list lookup for the `HashMap<PublicKey, Trie>`. -/
def lookupTrie : List (String × Trie) → String → Option Trie
  | [], _ => none
  | (k, t) :: rest, key => if k = key then some t else lookupTrie rest key

/-- Assoc-list in-place update (`get_mut` writeback). -/
def updateTrie : List (String × Trie) → String → Trie → List (String × Trie)
  | [], _, _ => []
  | (k, t) :: rest, key, newT =>
    if k = key then (k, newT) :: rest else (k, t) :: updateTrie rest key newT

/-- `State`: the state trie plus per-contract storage tries. -/
structure State where
  state_trie : Trie
  storage_trie_map : List (String × Trie)

/-- `State::new`. -/
def State.new : State := ⟨Trie.new, []⟩

/-- `State::put_account`: lazily create the storage trie, then store the
serialised account at `address.to_hex()` (the address itself here). -/
def State.put_account (st : State) (account_data : PublicAccount) : State :=
  let map :=
    match lookupTrie st.storage_trie_map account_data.address with
    | none => st.storage_trie_map ++ [(account_data.address, Trie.new)]
    | some _ => st.storage_trie_map
  { state_trie := st.state_trie.put account_data.address (sAccount account_data),
    storage_trie_map := map }

/-- `State::get_account`: `none` models both the "ACCOUNT DOESNT EXIST
YET" panic and a serde parse panic. -/
def State.get_account (st : State) (address : String) : Option PublicAccount :=
  (st.state_trie.get address).bind deserAccount

/-- `State::get_state_root`. -/
def State.get_state_root (st : State) : String := st.state_trie.root_hash

/-! ## Transaction validation and execution -/

/-- `Transaction::validate_transaction` (the Transact validator).  It
takes `&mut State` in Rust because the dry-run of contract code can
write to the contract's storage trie; the model threads the state
through.  `none` models a panic (missing `from`/signature/account or a
VM panic during the dry-run). -/
def validate_transaction (tx : Transaction) (st : State) : Option (Bool × State) :=
  match tx.unsigned_tx.from_ with
  | none => none
  | some public_key =>
    match tx.signature with
    | none => none
    | some sig =>
      if ¬ verify_signature (sUnsignedTx tx.unsigned_tx) sig public_key then some (false, st)
      else
        match st.get_account public_key with
        | none => none
        | some from_account =>
          match tx.unsigned_tx.to_ with
          | none => none
          | some to_addr =>
            match st.get_account to_addr with
            | none => none
            | some to_account =>
              if from_account.balance < add64 tx.unsigned_tx.value tx.unsigned_tx.gas_limit
              then some (false, st)
              else
                match to_account.code_hash with
                | some _ =>
                  match lookupTrie st.storage_trie_map to_account.address with
                  | none => none
                  | some storage_trie =>
                    match run_code to_account.code storage_trie with
                    | .error _ => none
                    | .ok (r, storage_trie') =>
                      if tx.unsigned_tx.gas_limit < r.gas_used
                      then some (false, { st with storage_trie_map := updateTrie st.storage_trie_map to_account.address storage_trie' })
                      else some (true, { st with storage_trie_map := updateTrie st.storage_trie_map to_account.address storage_trie' })
                | none => some (true, st)

/-- `Transaction::validate_create_account_transaction`. -/
def validate_create_account_transaction (_tx : Transaction) : Bool := true

/-- `Transaction::validate_mining_reward_transaction`. -/
def validate_mining_reward_transaction (tx : Transaction) : Bool :=
  tx.unsigned_tx.value = MINING_REWARD

/-- `Transaction::validate_transaction_series`: fail fast on the first
invalid transaction. -/
def validate_transaction_series : List Transaction → State → Option (Bool × State)
  | [], st => some (true, st)
  | tx :: rest, st =>
    match tx.unsigned_tx.data.tx_type with
    | .MiningReward =>
      if validate_mining_reward_transaction tx
      then validate_transaction_series rest st
      else some (false, st)
    | .CreateAccount =>
      if validate_create_account_transaction tx
      then validate_transaction_series rest st
      else some (false, st)
    | .Transact =>
      match validate_transaction tx st with
      | none => none
      | some (false, st') => some (false, st')
      | some (true, st') => validate_transaction_series rest st'

/-- `Transaction::run_mining_tx`. -/
def run_mining_tx (tx : Transaction) (st : State) : Option State :=
  match tx.unsigned_tx.to_ with
  | none => none
  | some to_addr =>
    match st.get_account to_addr with
    | none => none
    | some account =>
      some (st.put_account { account with balance := add64 account.balance tx.unsigned_tx.value })

/-- `Transaction::run_standard_tx`: both accounts are loaded before
either write; `from` is written back before `to`. -/
def run_standard_tx (tx : Transaction) (st : State) : Option State :=
  match tx.unsigned_tx.from_ with
  | none => none
  | some from_addr =>
    match st.get_account from_addr with
    | none => none
    | some from_account =>
      match tx.unsigned_tx.to_ with
      | none => none
      | some to_addr =>
        match st.get_account to_addr with
        | none => none
        | some to_account =>
          let refund := tx.unsigned_tx.gas_limit
          let runSC : Option (Nat × State) :=
            match to_account.code_hash with
            | some _ =>
              match lookupTrie st.storage_trie_map to_account.address with
              | none => none
              | some storage_trie =>
                match run_code to_account.code storage_trie with
                | .error _ => none
                | .ok (r, storage_trie') =>
                  let map' := updateTrie st.storage_trie_map to_account.address storage_trie'
                  some (sub64 refund r.gas_used, { st with storage_trie_map := map' })
            | none => some (refund, st)
          match runSC with
          | none => none
          | some (refund', st') =>
            let fromBal := add64 (sub64 (sub64 from_account.balance tx.unsigned_tx.value) tx.unsigned_tx.gas_limit) refund'
            let toBal := add64 to_account.balance tx.unsigned_tx.value
            let from_account' := { from_account with balance := fromBal }
            let to_account' := { to_account with balance := toBal }
            some ((st'.put_account from_account').put_account to_account')

/-- `Transaction::run_create_account_tx`. -/
def run_create_account_tx (tx : Transaction) (st : State) : Option State :=
  match tx.unsigned_tx.data.account_data with
  | none => none
  | some account_data => some (st.put_account account_data)

/-- `Transaction::run_transaction`. -/
def run_transaction (tx : Transaction) (st : State) : Option State :=
  match tx.unsigned_tx.data.tx_type with
  | .MiningReward => run_mining_tx tx st
  | .Transact => run_standard_tx tx st
  | .CreateAccount => run_create_account_tx tx st

/-! ## Blocks (`src/rs/src/blockchain/block.rs`) -/

/-- `HASH_LENGTH`. -/
def HASH_LENGTH : Nat := 64

/-- `MINE_RATE` in milliseconds. -/
def MINE_RATE : Int := 13 * 1000

/-- `TruncatedBlockHeaders`.  `beneficiary` is a public key (its hex
form); `difficulty`/`timestamp` are `i64`, `number` a `usize`, modelled
on `Int`/`Nat` (their values never approach the word size). -/
structure TruncatedBlockHeaders where
  parent_hash : String
  beneficiary : String
  difficulty : Int
  number : Nat
  timestamp : Int
  tx_root : String
  state_root : String
deriving DecidableEq, Repr

/-- `BlockHeaders`; the nonce is a `u128`. -/
structure BlockHeaders where
  truncated_block_headers : TruncatedBlockHeaders
  nonce : Nat
deriving DecidableEq, Repr

/-- `Block`. -/
structure Block where
  block_headers : BlockHeaders
  tx_series : List Transaction
deriving DecidableEq, Repr

/-- serde_json serialisation of `TruncatedBlockHeaders`. -/
def sTBH (h : TruncatedBlockHeaders) : String :=
  "H(" ++ String.mk (serS h.parent_hash.data) ++ ","
       ++ String.mk (serS h.beneficiary.data) ++ ","
       ++ toString h.difficulty ++ "," ++ toString h.number ++ ","
       ++ toString h.timestamp ++ ","
       ++ String.mk (serS h.tx_root.data) ++ ","
       ++ String.mk (serS h.state_root.data) ++ ")"

/-- serde_json serialisation of `BlockHeaders`. -/
def sBH (b : BlockHeaders) : String :=
  "B(" ++ sTBH b.truncated_block_headers ++ "," ++ toString b.nonce ++ ")"

/-- serde_json serialisation of a transaction series. -/
def sTxSeries : List Transaction → String
  | [] => "[]"
  | tx :: rest => "[" ++ sTx tx ++ ";" ++ sTxSeries rest ++ "]"

/-- serde_json serialisation of a whole `Block`. -/
def sBlock (b : Block) : String :=
  "K(" ++ sBH b.block_headers ++ "," ++ sTxSeries b.tx_series ++ ")"

/-- `keccak_hash(&truncated_block_headers)`. -/
def keccakTBH (h : TruncatedBlockHeaders) : String := keccakish (sTBH h)

/-- `keccak_hash(&block.block_headers)`. -/
def keccakBH (b : BlockHeaders) : String := keccakish (sBH b)

/-- `keccak_hash(&block)`. -/
def keccakBlock (b : Block) : String := keccakish (sBlock b)

/-- `keccak_hash(&format!("{}{}", hash, nonce))`: serde_json serialises
a plain string by quoting it. -/
def keccakStr (s : String) : String := keccakish ("\"" ++ s ++ "\"")

/-- `Block::genesis()`.  Rust draws a random beneficiary key and takes
the current time; both are explicit parameters here. -/
def genesisBlock (beneficiary : String) (now : Int) : Block :=
  { block_headers :=
      { truncated_block_headers :=
          { parent_hash := "NONE"
            beneficiary := beneficiary
            difficulty := 1
            number := 0
            timestamp := now - 30 * 1000
            tx_root := "NONE"
            state_root := "NONE" }
        nonce := 0 }
    tx_series := [] }

/-- Left-pad with zeros to `HASH_LENGTH` characters. -/
def padHex (s : String) : String :=
  String.mk (List.replicate (HASH_LENGTH - s.length) '0') ++ s

/-- `Block::calc_block_target_hash`: `MAX256 / difficulty` in hex,
zero-padded to 64 chars.  `none` models the `U256` panic on a
non-positive difficulty (division by zero / negative conversion). -/
def calc_block_target_hash (last_block : Block) : Option String :=
  let d := last_block.block_headers.truncated_block_headers.difficulty
  if d ≤ 0 then none
  else
    let value : Nat := (16 ^ HASH_LENGTH - 1) / d.toNat
    some (padHex (String.mk (Nat.toDigits 16 value)))

/-- `Block::adjust_difficulty`. -/
def adjust_difficulty (last_block : Block) (timestamp : Int) : Int :=
  let previous_difficulty := last_block.block_headers.truncated_block_headers.difficulty
  let previous_timestamp := last_block.block_headers.truncated_block_headers.timestamp
  let new_difficulty :=
    if MINE_RATE < timestamp - previous_timestamp
    then previous_difficulty - 1
    else previous_difficulty + 1
  if new_difficulty < 1 then 1 else new_difficulty

/-- Lexicographic (byte-wise) string comparison, Rust's `<` on `String`. -/
def ltStr : List Char → List Char → Bool
  | [], [] => false
  | [], _ :: _ => true
  | _ :: _, [] => false
  | a :: as, b :: bs => if a < b then true else if b < a then false else ltStr as bs

/-- Stable insertion into a series sorted by ascending tx id. -/
def insertById (tx : Transaction) : List Transaction → List Transaction
  | [] => [tx]
  | t :: rest =>
    if tx.unsigned_tx.id < t.unsigned_tx.id then tx :: t :: rest
    else t :: insertById tx rest

/-- `sorted_by_key(|t| t.unsigned_tx.id)`. -/
def sortById : List Transaction → List Transaction
  | [] => []
  | tx :: rest => insertById tx (sortById rest)

/-- `Trie::build_trie`: insert `keccak_hash(tx) → json(tx)` in ascending
order of tx id. -/
def build_trie (items : List Transaction) : Trie :=
  (sortById items).foldl (fun t tx => t.put (keccakTx tx) (sTx tx)) Trie.new

/-- `Block::validate_block`.  `g_ben`/`g_ts` are the randomness and the
clock of the `Block::genesis()` call in its first check; the state is
threaded because the transaction-series dry-run can write to storage
tries.  `none` models a panic. -/
def validate_block (g_ben : String) (g_ts : Int) (last_block this_block : Block)
    (st : State) : Option (Bool × State) :=
  if keccakBlock this_block = keccakBlock (genesisBlock g_ben g_ts) then some (true, st)
  else if keccakBH last_block.block_headers
          ≠ this_block.block_headers.truncated_block_headers.parent_hash then
    some (false, st)
  else if this_block.block_headers.truncated_block_headers.number
          ≠ last_block.block_headers.truncated_block_headers.number + 1 then
    some (false, st)
  else if 1 < (this_block.block_headers.truncated_block_headers.difficulty
               - last_block.block_headers.truncated_block_headers.difficulty).natAbs then
    some (false, st)
  else
    match calc_block_target_hash last_block with
    | none => none
    | some target =>
      if ¬ ltStr (keccakStr (keccakTBH this_block.block_headers.truncated_block_headers ++ toString this_block.block_headers.nonce)).data target.data then some (false, st)
      else
        match validate_transaction_series this_block.tx_series st with
        | none => none
        | some (false, st') => some (false, st')
        | some (true, st') =>
          if (build_trie this_block.tx_series).root_hash
             ≠ this_block.block_headers.truncated_block_headers.tx_root then
            some (false, st')
          else some (true, st')

/-- `Block::run_block`: execute every transaction in series order. -/
def run_block (block : Block) (st : State) : Option State :=
  block.tx_series.foldl
    (fun acc tx => acc.bind fun s => run_transaction tx s) (some st)

/-! ## Mempool and chain (`tx_queue.rs`, `blockchain.rs`) -/

/-- `TransactionQueue`: id-keyed map as an association list. -/
structure TransactionQueue where
  tx_map : List (Nat × Transaction)
deriving DecidableEq, Repr

/-- Remove one id (`HashMap::remove`). -/
def removeId : List (Nat × Transaction) → Nat → List (Nat × Transaction)
  | [], _ => []
  | (k, t) :: rest, id_ => if k = id_ then rest else (k, t) :: removeId rest id_

/-- `TransactionQueue::clear_block_tx`. -/
def TransactionQueue.clear_block_tx (q : TransactionQueue)
    (tx_series : List Transaction) : TransactionQueue :=
  ⟨tx_series.foldl (fun m tx => removeId m tx.unsigned_tx.id) q.tx_map⟩

/-- `Blockchain`. -/
structure Blockchain where
  chain : List Block
  state : State

/-- `Blockchain::add_block`: validate against the last block; on success
clear the mempool of the block's txs, execute the block, push it.
`none` models a panic (empty chain indexing, or a panic inside
validation or execution). -/
def add_block (g_ben : String) (g_ts : Int) (bc : Blockchain) (block : Block)
    (tx_queue : TransactionQueue) : Option (Bool × Blockchain × TransactionQueue) :=
  match bc.chain.getLast? with
  | none => none
  | some last_block =>
    match validate_block g_ben g_ts last_block block bc.state with
    | none => none
    | some (false, st') => some (false, { bc with state := st' }, tx_queue)
    | some (true, st') =>
      let tx_queue' := tx_queue.clear_block_tx block.tx_series
      match run_block block st' with
      | none => none
      | some st'' =>
        some (true, { chain := bc.chain ++ [block], state := st'' }, tx_queue')

/-- The loop body of `Blockchain::replace_chain` from index 1 on:
validate each block against its predecessor and execute it. -/
def replace_chain_go (g_ben : String) (g_ts : Int) (st : State) (prev : Block) :
    List Block → Option (State × Option String)
  | [] => some (st, none)
  | b :: rest =>
    match validate_block g_ben g_ts prev b st with
    | none => none
    | some (false, st') =>
      some (st', some "failed to replace chain due to validation error.")
    | some (true, st') =>
      match run_block b st' with
      | none => none
      | some st'' => replace_chain_go g_ben g_ts st'' b rest

/-- `Blockchain::replace_chain`: index 0 is skipped (assumed genesis);
on any validation failure the incoming chain is not installed (though
state mutations made so far persist). -/
def replace_chain (g_ben : String) (g_ts : Int) (bc : Blockchain)
    (chain : List Block) : Option (Blockchain × Option String) :=
  match chain with
  | [] => some ({ chain := [], state := bc.state }, none)
  | b0 :: rest =>
    match replace_chain_go g_ben g_ts bc.state b0 rest with
    | none => none
    | some (st', some msg) => some ({ bc with state := st' }, some msg)
    | some (st', none) => some ({ chain := b0 :: rest, state := st' }, none)

/-! ## Helper lemmas for the claims -/

/-- Distinct strings have distinct character lists. -/
theorem String.data_ne (s t : String) (h : s ≠ t) : s.data ≠ t.data :=
  fun hd => h (by cases s; cases t; simp_all)

/-- `get_account` directly after `put_account` of the same account. -/
theorem get_account_put_self (st : State) (a : PublicAccount) :
    (st.put_account a).get_account a.address = some a := by
  unfold State.put_account State.get_account Trie.get Trie.put
  simp only [getNode_putNode_self, Option.some_bind, sAccount]
  exact deserAccount_serAccount a

/-- `put_account` does not disturb `get_account` at a different,
already-present address. -/
theorem get_account_put_other (st : State) (a : PublicAccount) (k : String)
    (hne : a.address ≠ k) (w : PublicAccount) (h : st.get_account k = some w) :
    (st.put_account a).get_account k = some w := by
  unfold State.get_account at h ⊢
  unfold State.put_account Trie.get Trie.put
  cases hg : st.state_trie.get k with
  | none => rw [hg] at h; cases h
  | some s =>
    rw [hg] at h
    simp only [Option.some_bind] at h
    unfold Trie.get at hg
    have hd : a.address.data ≠ k.data := String.data_ne _ _ hne
    simp only [getNode_putNode_present a.address.data k.data st.state_trie.head
      (sAccount a) s hd hg, Option.some_bind]
    exact h

/-- The bare-`VAL` loop never advances: with the program counter parked
on the `VAL`, every fuel budget ends in the execution-limit panic. -/
theorem loopVM_val_spin (v : Int) (t : Trie) :
    ∀ (fuel : Nat) (s : List OPCODE) (g : Nat),
      loopVM fuel ⟨0, s, [OPCODE.VAL v], g⟩ t = .error .executionLimit := by
  intro fuel
  induction fuel with
  | zero => intro s g; rfl
  | succ n ih =>
    intro s g
    exact (rfl : loopVM (n + 1) ⟨0, s, [OPCODE.VAL v], g⟩ t
      = loopVM n ⟨0, s, [OPCODE.VAL v], g⟩ t).trans (ih s g)

/-- The `[PUSH, VAL 0, JUMP]` program: interpreter state after `2*k`
iterations of the loop (a two-instruction cycle through the wrapped
program counter). -/
def jump0Cfg (g : Nat) : Interp := ⟨0, [], [OPCODE.PUSH, OPCODE.VAL 0, OPCODE.JUMP], g⟩

/-- Every fuel budget ends the `[PUSH, VAL 0, JUMP]` program in the
execution-limit panic. -/
theorem loopVM_jump0 (t : Trie) :
    ∀ (n : Nat), (∀ g, loopVM n (jump0Cfg g) t = .error .executionLimit)
      ∧ (∀ g, loopVM (n + 1) (jump0Cfg g) t = .error .executionLimit) := by
  intro n
  induction n with
  | zero =>
    constructor
    · intro g; rfl
    · intro g; rfl
  | succ n ih =>
    refine ⟨ih.2, ?_⟩
    intro g
    exact (rfl : loopVM (n + 2) (jump0Cfg g) t
      = loopVM n (jump0Cfg (g + 2)) t).trans (ih.1 (g + 2))

/-- The `[PUSH, VAL 0, JUMP]` program is still running after any even
number of unbounded steps. -/
theorem iterVM_jump0 (t : Trie) :
    ∀ (k : Nat) (g : Nat), iterVM (2 * k) (jump0Cfg g) t = some (jump0Cfg (g + 2 * k), t) := by
  intro k
  induction k with
  | zero => intro g; rfl
  | succ k ih =>
    intro g
    have h2 : iterVM (2 * (k + 1)) (jump0Cfg g) t
        = iterVM (2 * k) (jump0Cfg (g + 2)) t := rfl
    rw [h2, ih (g + 2)]
    have : g + 2 + 2 * k = g + 2 * (k + 1) := by omega
    rw [this]

/-! ## Claim C1 -/

/-- C1 (amended): a bare `VAL` reached outside a push is *not* skipped:
the `continue` in its match arm bypasses the end-of-loop program-counter
increment, so the interpreter stays parked on the `VAL` (the step
returns an unchanged state) and `run_code` ends in the fatal
execution-limit panic. -/
theorem C1_bare_val_not_skipped (v : Int) (t : Trie) :
    stepVM ⟨0, [], [OPCODE.VAL v], 0⟩ t = .next ⟨0, [], [OPCODE.VAL v], 0⟩ t ∧
    run_code [OPCODE.VAL v] t = .error .executionLimit :=
  ⟨rfl, loopVM_val_spin v t EXECUTION_LIMIT [] 0⟩

/-- C1 counterexample: on the one-opcode program `[VAL 7]` the
interpreter does not skip the bare `VAL` and continue past it — it
spins in place and dies with the execution-limit panic. -/
theorem C1_counterexample :
    run_code [OPCODE.VAL 7] Trie.new = .error .executionLimit :=
  loopVM_val_spin 7 Trie.new EXECUTION_LIMIT [] 0

/-! ## Claim C5 -/

/-- C5: difficulty retargeting: minus one beyond `MINE_RATE`, plus one
otherwise, clamped below by 1; from a difficulty `≥ 1` the result is
`≥ 1` and moves by at most 1. -/
theorem C5_adjust_difficulty (last : Block) (t : Int) :
    (MINE_RATE < t - last.block_headers.truncated_block_headers.timestamp →
      adjust_difficulty last t
        = max (last.block_headers.truncated_block_headers.difficulty - 1) 1) ∧
    (¬ MINE_RATE < t - last.block_headers.truncated_block_headers.timestamp →
      adjust_difficulty last t
        = max (last.block_headers.truncated_block_headers.difficulty + 1) 1) ∧
    (1 ≤ last.block_headers.truncated_block_headers.difficulty →
      1 ≤ adjust_difficulty last t ∧
      (adjust_difficulty last t
        - last.block_headers.truncated_block_headers.difficulty).natAbs ≤ 1) := by
  unfold adjust_difficulty
  refine ⟨?_, ?_, ?_⟩ <;> intro h <;> simp only [h, if_true, if_false, max_def] <;>
    split_ifs <;> simp_all <;> omega

/-- C5 witness: from genesis (difficulty 1, timestamp `now − 30s`) a
candidate 20 seconds after the epoch is over `MINE_RATE`, so the
difficulty drops and is clamped to 1. -/
theorem C5_witness :
    MINE_RATE < 20000 - (genesisBlock "aa" 0).block_headers.truncated_block_headers.timestamp ∧
    adjust_difficulty (genesisBlock "aa" 0) 20000
      = max ((genesisBlock "aa" 0).block_headers.truncated_block_headers.difficulty - 1) 1 :=
  ⟨by decide, (C5_adjust_difficulty (genesisBlock "aa" 0) 20000).1 (by decide)⟩

/-! ## Claim C6 -/

/-- C6: after `put(k, v)`, `get(k)` returns `Some(v)`; and repeating the
same `put(k, v)` leaves `root_hash` unchanged. -/
theorem C6_trie_put_get (t : Trie) (k v : String) :
    (t.put k v).get k = some v ∧
    ((t.put k v).put k v).root_hash = (t.put k v).root_hash := by
  constructor
  · unfold Trie.put Trie.get
    exact getNode_putNode_self k.data t.head v
  · unfold Trie.put
    simp only [putNode_putNode_self]

/-! ## Claim C8 -/

/-- C8: `run_code` terminates: it returns either a normal result (`STOP`
or the program counter walking past the end) or a fatal error; a run
that is still going after `EXECUTION_LIMIT` unbounded steps necessarily
returns the fatal execution-limit error; and the jump-back-to-0 program
`[PUSH, VAL 0, JUMP]` ends in that fatal error within the limit. -/
theorem C8_run_code_terminates (code : List OPCODE) (t : Trie) :
    ((∃ r, run_code code t = .ok r) ∨ (∃ e, run_code code t = .error e)) ∧
    ((iterVM EXECUTION_LIMIT ⟨0, [], code, 0⟩ t).isSome →
      run_code code t = .error .executionLimit) ∧
    run_code [OPCODE.PUSH, OPCODE.VAL 0, OPCODE.JUMP] t = .error .executionLimit := by
  refine ⟨?_, ?_, (loopVM_jump0 t EXECUTION_LIMIT).1 0⟩
  · cases h : run_code code t with
    | ok r => exact Or.inl ⟨r, rfl⟩
    | error e => exact Or.inr ⟨e, rfl⟩
  · intro h
    exact loopVM_of_iterVM EXECUTION_LIMIT ⟨0, [], code, 0⟩ t h

/-- C8 witness: the `[PUSH, VAL 0, JUMP]` program is still running after
`EXECUTION_LIMIT` unbounded steps, and `run_code` on it returns the
execution-limit error. -/
theorem C8_witness :
    (iterVM EXECUTION_LIMIT ⟨0, [], [OPCODE.PUSH, OPCODE.VAL 0, OPCODE.JUMP], 0⟩ Trie.new).isSome ∧
    run_code [OPCODE.PUSH, OPCODE.VAL 0, OPCODE.JUMP] Trie.new = .error .executionLimit := by
  have hiter : iterVM EXECUTION_LIMIT (jump0Cfg 0) Trie.new
      = some (jump0Cfg (0 + 2 * 5000), Trie.new) := iterVM_jump0 Trie.new 5000 0
  constructor
  · rw [show (⟨0, [], [OPCODE.PUSH, OPCODE.VAL 0, OPCODE.JUMP], 0⟩ : Interp) = jump0Cfg 0 from rfl,
      hiter]
    rfl
  · exact (C8_run_code_terminates [OPCODE.PUSH, OPCODE.VAL 0, OPCODE.JUMP] Trie.new).2.2

/-! ## Claim C9 -/

/-- C9: if `replace_chain` returns an error, the original chain is
retained (the incoming chain is not installed). -/
theorem C9_replace_chain_err_keeps_chain (g_ben : String) (g_ts : Int)
    (bc : Blockchain) (chain : List Block) (bc' : Blockchain) (msg : String)
    (h : replace_chain g_ben g_ts bc chain = some (bc', some msg)) :
    bc'.chain = bc.chain := by
  cases chain with
  | nil => simp [replace_chain] at h
  | cons b0 rest =>
    simp only [replace_chain] at h
    cases hgo : replace_chain_go g_ben g_ts bc.state b0 rest with
    | none => rw [hgo] at h; cases h
    | some p =>
      obtain ⟨st', m⟩ := p
      cases m with
      | none => rw [hgo] at h; simp at h
      | some m' =>
        rw [hgo] at h
        simp only [Option.some.injEq, Prod.mk.injEq] at h
        rw [← h.1]

/-- A chain whose second block has a corrupted parent hash. -/
def c9bad : Block :=
  { block_headers :=
      { truncated_block_headers :=
          { parent_hash := "xx", beneficiary := "q", difficulty := 1,
            number := 1, timestamp := 9, tx_root := "NONE", state_root := "NONE" }
        nonce := 0 }
    tx_series := [] }

/-- The local chain used in the C9 witness. -/
def c9bc : Blockchain := { chain := [genesisBlock "zz" 5], state := State.new }

/-- C9 witness: replacing with a chain whose second block fails
validation returns the error and keeps the original chain. -/
theorem C9_witness :
    replace_chain "gg" 0 c9bc [genesisBlock "zz" 5, c9bad]
      = some (c9bc, some "failed to replace chain due to validation error.") ∧
    c9bc.chain = c9bc.chain :=
  ⟨by rfl, C9_replace_chain_err_keeps_chain "gg" 0 c9bc [genesisBlock "zz" 5, c9bad]
    c9bc "failed to replace chain due to validation error." (by rfl)⟩

/-! ## Claim C3 -/

/-- C3 (amended): `Block::genesis()` is parameterised by a freshly drawn
random beneficiary and the current time, so it is *not* deterministic;
two genesis blocks agree in hash only when those draws produce
hash-equal headers.  The first check of `validate_block` accepts a block
whose hash coincides with the genesis block it freshly constructs — in
particular a genesis built from the same draw — without touching the
state. -/
theorem C3_genesis_first_check (g_ben : String) (g_ts : Int) (last : Block) (st : State) :
    validate_block g_ben g_ts last (genesisBlock g_ben g_ts) st = some (true, st) := by
  simp [validate_block]

/-- C3 counterexample: two `Block::genesis()` results with different
random beneficiaries have different hashes, and the first check of
`validate_block` (with its own fresh genesis draw) rejects rather than
accepts an earlier genesis block — here the whole validation returns
`false`. -/
theorem C3_counterexample :
    keccakBlock (genesisBlock "aa" 0) ≠ keccakBlock (genesisBlock "bb" 0) ∧
    validate_block "bb" 0 (genesisBlock "zz" 5) (genesisBlock "aa" 0) State.new
      = some (false, State.new) := by
  constructor
  · decide
  · rfl

/-! ## Claim C4 -/

/-- C4 (amended): the per-kind validators for `MiningReward` and
`CreateAccount` are total, and `validate_transaction` returns `false`
(without touching state) on a bad signature; but the `Transact`
validator *panics* instead of returning `false` when `from` is absent
(and likewise for a missing signature or an account absent from the
state trie), so `validate_transaction_series` panics on such input. -/
theorem C4_transact_validator_panics (tx : Transaction) (st : State)
    (htype : tx.unsigned_tx.data.tx_type = TxType.Transact)
    (hfrom : tx.unsigned_tx.from_ = none) :
    validate_transaction tx st = none ∧
    validate_transaction_series [tx] st = none := by
  have h2 : validate_transaction tx st = none := by
    unfold validate_transaction
    rw [hfrom]
  refine ⟨h2, ?_⟩
  simp only [validate_transaction_series, htype, h2]

/-- A `Transact` transaction with `from = None` (as the HTTP surface can
produce only for other kinds, but nothing stops a peer from gossiping
one). -/
def c4tx : Transaction :=
  { unsigned_tx :=
      { id := 1, from_ := none, to_ := some "c", value := 0,
        data := { tx_type := .Transact, account_data := none }, gas_limit := 5 }
    signature := none }

/-- C4 witness: the series validator panics (returns no boolean) on the
`from = None` `Transact`. -/
theorem C4_witness :
    c4tx.unsigned_tx.data.tx_type = TxType.Transact ∧
    c4tx.unsigned_tx.from_ = none ∧
    validate_transaction_series [c4tx] State.new = none :=
  ⟨rfl, rfl, (C4_transact_validator_panics c4tx State.new rfl rfl).2⟩

/-- C4 counterexample: on a `Transact` whose `from` is `None`,
`validate_transaction_series` does not return the boolean `false` — it
panics (no result). -/
theorem C4_counterexample :
    validate_transaction_series [c4tx] State.new = none := by rfl

/-! ## State-trie preservation through validation (for C2) -/

/-- `validate_transaction` can write storage tries (the dry-run) but
never the state trie. -/
theorem validate_transaction_state_trie (tx : Transaction) (st : State)
    (b : Bool) (st' : State)
    (h : validate_transaction tx st = some (b, st')) :
    st'.state_trie = st.state_trie := by
  unfold validate_transaction at h
  repeat' split at h
  all_goals try cases h
  all_goals rfl

/-- `validate_transaction_series` never writes the state trie. -/
theorem validate_series_state_trie :
    ∀ (txs : List Transaction) (st : State) (b : Bool) (st' : State),
      validate_transaction_series txs st = some (b, st') →
      st'.state_trie = st.state_trie := by
  intro txs
  induction txs with
  | nil =>
    intro st b st' h
    unfold validate_transaction_series at h
    injection h with h'; injection h' with hb hst; rw [← hst]
  | cons tx rest ih =>
    intro st b st' h
    unfold validate_transaction_series at h
    split at h
    · split at h
      · exact ih st b st' h
      · injection h with h'; injection h' with hb hst; rw [← hst]
    · split at h
      · exact ih st b st' h
      · injection h with h'; injection h' with hb hst; rw [← hst]
    · split at h
      · cases h
      · rename_i st1 hvt
        injection h with h'; injection h' with hb hst; rw [← hst]
        exact validate_transaction_state_trie tx st _ _ hvt
      · rename_i st1 hvt
        have h1 := validate_transaction_state_trie tx st _ _ hvt
        have h2 := ih st1 b st' h
        rw [h2, h1]

/-- `validate_block` never writes the state trie. -/
theorem validate_block_state_trie (g_ben : String) (g_ts : Int)
    (last this_b : Block) (st : State) (b : Bool) (st' : State)
    (h : validate_block g_ben g_ts last this_b st = some (b, st')) :
    st'.state_trie = st.state_trie := by
  unfold validate_block at h
  repeat' split at h
  all_goals try cases h
  all_goals first
    | rfl
    | (rename_i hser; exact validate_series_state_trie _ _ _ _ hser)

/-! ## Claim C2 -/

/-- C2 (amended): when validation fails, `add_block` returns `false` and
leaves the chain, the mempool and the *state trie* untouched — but
validation is not mutation-free: the dry-run of contract code inside
`validate_transaction` can write to the contract's per-contract storage
trie, and such writes survive the rejection. -/
theorem C2_add_block_reject_preserves (g_ben : String) (g_ts : Int)
    (bc : Blockchain) (block : Block) (q : TransactionQueue)
    (r : Bool × Blockchain × TransactionQueue)
    (h : add_block g_ben g_ts bc block q = some r) (hfalse : r.1 = false) :
    r.2.1.chain = bc.chain ∧
    r.2.1.state.state_trie = bc.state.state_trie ∧
    r.2.2 = q := by
  unfold add_block at h
  cases hlast : bc.chain.getLast? with
  | none => rw [hlast] at h; cases h
  | some last =>
    rw [hlast] at h
    simp only [] at h
    cases hv : validate_block g_ben g_ts last block bc.state with
    | none => rw [hv] at h; cases h
    | some p =>
      obtain ⟨b, st'⟩ := p
      cases b with
      | false =>
        rw [hv] at h
        cases h
        exact ⟨rfl, validate_block_state_trie g_ben g_ts last block bc.state false st' hv, rfl⟩
      | true =>
        rw [hv] at h
        simp only [] at h
        cases hr : run_block block st' with
        | none => rw [hr] at h; cases h
        | some st'' =>
          rw [hr] at h
          cases h
          cases hfalse

/-- The last block of the C2 witness chain. -/
def c2parent : Block := genesisBlock "zz" 5

/-- A block whose parent hash does not match, so validation fails
before any transaction is dry-run. -/
def c2badBlock : Block :=
  { block_headers :=
      { truncated_block_headers :=
          { parent_hash := "wrong", beneficiary := "m", difficulty := 1,
            number := 1, timestamp := 20, tx_root := "NONE", state_root := "s" }
        nonce := 0 }
    tx_series := [] }

/-- The blockchain of the C2 witness. -/
def c2bc : Blockchain := { chain := [c2parent], state := State.new }

/-- C2 witness: a rejected block leaves chain, state trie and mempool
as they were. -/
theorem C2_witness :
    add_block "gg" 0 c2bc c2badBlock ⟨[]⟩ = some (false, c2bc, ⟨[]⟩) ∧
    (c2bc.chain = c2bc.chain ∧
     c2bc.state.state_trie = c2bc.state.state_trie ∧
     (⟨[]⟩ : TransactionQueue) = ⟨[]⟩) :=
  ⟨by rfl, C2_add_block_reject_preserves "gg" 0 c2bc c2badBlock ⟨[]⟩
    (false, c2bc, ⟨[]⟩) (by rfl) rfl⟩

/-! C2 counterexample fixtures: a block whose first `Transact` targets a
contract that `STORE`s during the validation dry-run, and whose second
transaction (a `MiningReward` with the wrong value) is invalid, so the
block is rejected *after* the storage write. -/

/-- Contract code storing `456` under key `123`. -/
def c2scCode : List OPCODE :=
  [.PUSH, .VAL 456, .PUSH, .VAL 123, .STORE, .STOP]

/-- The sender account. -/
def c2acctF : PublicAccount :=
  { address := "a", balance := 11, code := [], code_hash := none }

/-- The contract account. -/
def c2acctC : PublicAccount :=
  { address := "c", balance := 3, code := c2scCode, code_hash := some "h" }

/-- Pre-state: both accounts created (their storage tries are lazily
created by `put_account`, as in the node). -/
def c2st : State := (State.new.put_account c2acctF).put_account c2acctC

/-- The unsigned transfer into the contract. -/
def c2utx : UnsignedTx :=
  { id := 7, from_ := some "a", to_ := some "c", value := 0,
    data := { tx_type := .Transact, account_data := none }, gas_limit := 10 }

/-- The signed transfer. -/
def c2tx : Transaction :=
  { unsigned_tx := c2utx
    signature := some { signer := "a", message := sUnsignedTx c2utx } }

/-- An invalid mining reward (`value ≠ 50`), placed after the contract
call so the series fails only after the dry-run has written storage. -/
def c2badReward : Transaction :=
  { unsigned_tx :=
      { id := 8, from_ := none, to_ := some "m", value := 1,
        data := { tx_type := .MiningReward, account_data := none }, gas_limit := 0 }
    signature := none }

/-- The offending block: parent hash, number, difficulty and
proof-of-work all in order, but the second transaction is invalid. -/
def c2block : Block :=
  { block_headers :=
      { truncated_block_headers :=
          { parent_hash := keccakBH c2parent.block_headers, beneficiary := "m",
            difficulty := 1, number := 1, timestamp := 20,
            tx_root := "bogus", state_root := "s" }
        nonce := 0 }
    tx_series := [c2tx, c2badReward] }

/-- The blockchain holding the pre-state. -/
def c2bcFull : Blockchain := { chain := [c2parent], state := c2st }

set_option maxRecDepth 100000 in
set_option maxHeartbeats 2000000 in
/-- C2 counterexample: `add_block` rejects the block (returns `false`,
the invalid mining reward fails the series), yet the state is *not*
what it was — the contract's storage trie now holds `123 → 456`,
written by the validation dry-run of the first transaction. -/
theorem C2_counterexample :
    (add_block "gg" 0 c2bcFull c2block ⟨[]⟩).map
        (fun r => (r.1, (lookupTrie r.2.1.state.storage_trie_map "c").map
          (fun t => t.get "123")))
      = some (false, some (some "456")) ∧
    (lookupTrie c2bcFull.state.storage_trie_map "c").map (fun t => t.get "123")
      = some none := by
  constructor
  · rfl
  · rfl

/-- `get_account_put_self` with the address given separately. -/
theorem get_account_put_self_at (st : State) (a : PublicAccount) (k : String)
    (hk : a.address = k) : (st.put_account a).get_account k = some a :=
  hk ▸ get_account_put_self st a

/-! ## Claim C7 -/

/-- C7: a `Transact` to an existing plain account (`code_hash` absent,
`to ≠ from`) moves exactly `value`: the sender loses `value` (the
`gas_limit` is debited and fully refunded) and the recipient gains
`value`.  The premises are the conditions `validate_transaction`
guarantees before execution: both accounts present and stored under
their own addresses, and `value + gas_limit` covered by the sender's
balance (balances are `u64`). -/
theorem C7_standard_transfer (tx : Transaction) (st : State)
    (f t2 : String) (A B : PublicAccount)
    (hf : tx.unsigned_tx.from_ = some f)
    (ht : tx.unsigned_tx.to_ = some t2)
    (hA : st.get_account f = some A)
    (hB : st.get_account t2 = some B)
    (hAaddr : A.address = f) (hBaddr : B.address = t2)
    (hcode : B.code_hash = none)
    (hne : f ≠ t2)
    (hbal : tx.unsigned_tx.value + tx.unsigned_tx.gas_limit ≤ A.balance)
    (hA64 : A.balance < U64MOD)
    (hB64 : B.balance + tx.unsigned_tx.value < U64MOD) :
    ∃ st', run_standard_tx tx st = some st' ∧
      st'.get_account f = some { A with balance := A.balance - tx.unsigned_tx.value } ∧
      st'.get_account t2 = some { B with balance := B.balance + tx.unsigned_tx.value } := by
  have hA64' := hA64
  have hB64' := hB64
  unfold U64MOD at hA64' hB64'
  have harith1 : add64 (sub64 (sub64 A.balance tx.unsigned_tx.value)
      tx.unsigned_tx.gas_limit) tx.unsigned_tx.gas_limit
      = A.balance - tx.unsigned_tx.value := by
    unfold add64 sub64 U64MOD
    omega
  have harith2 : add64 B.balance tx.unsigned_tx.value
      = B.balance + tx.unsigned_tx.value := by
    unfold add64 U64MOD
    omega
  refine ⟨(st.put_account { A with balance := A.balance - tx.unsigned_tx.value
            }).put_account { B with balance := B.balance + tx.unsigned_tx.value },
          ?_, ?_, ?_⟩
  · simp only [run_standard_tx, hf, hA, ht, hB, hcode]
    rw [harith1, harith2]
  · apply get_account_put_other
    · show B.address ≠ f
      rw [hBaddr]
      exact fun hh => hne hh.symm
    · exact get_account_put_self_at st _ f hAaddr
  · exact get_account_put_self_at _ _ t2 hBaddr

/-- C7 witness sender. -/
def w7A : PublicAccount := { address := "a", balance := 100, code := [], code_hash := none }

/-- C7 witness recipient. -/
def w7B : PublicAccount := { address := "b", balance := 7, code := [], code_hash := none }

/-- C7 witness pre-state. -/
def w7st : State := (State.new.put_account w7A).put_account w7B

/-- C7 witness transaction: 30 from `a` to `b`, gas limit 10. -/
def w7tx : Transaction :=
  { unsigned_tx :=
      { id := 2, from_ := some "a", to_ := some "b", value := 30,
        data := { tx_type := .Transact, account_data := none }, gas_limit := 10 }
    signature := none }

/-- C7 witness: the concrete transfer debits 30 and credits 30. -/
theorem C7_witness :
    w7st.get_account "a" = some w7A ∧ w7st.get_account "b" = some w7B ∧
    (∃ st', run_standard_tx w7tx w7st = some st' ∧
      st'.get_account "a" = some { w7A with balance := w7A.balance - w7tx.unsigned_tx.value } ∧
      st'.get_account "b" = some { w7B with balance := w7B.balance + w7tx.unsigned_tx.value }) :=
  ⟨by rfl, by rfl,
   C7_standard_transfer w7tx w7st "a" "b" w7A w7B rfl rfl (by rfl) (by rfl)
     rfl rfl rfl (by decide) (by decide) (by decide) (by decide)⟩

/-! ## Claim C10 -/

/-- C10: a self-transfer (`from = to`, one existing plain account with
balance `B` and stored under its own address) *creates value*: both
copies are loaded before either write, the `to` copy is written back
after the `from` copy, so the debit is overwritten and the final
balance is `B + value`. -/
theorem C10_self_transfer (tx : Transaction) (st : State) (a : String)
    (A : PublicAccount)
    (hf : tx.unsigned_tx.from_ = some a)
    (ht : tx.unsigned_tx.to_ = some a)
    (hA : st.get_account a = some A)
    (hAaddr : A.address = a)
    (hcode : A.code_hash = none)
    (hbal : tx.unsigned_tx.value + tx.unsigned_tx.gas_limit ≤ A.balance)
    (h64 : A.balance + tx.unsigned_tx.value < U64MOD) :
    ∃ st', run_standard_tx tx st = some st' ∧
      st'.get_account a = some { A with balance := A.balance + tx.unsigned_tx.value } := by
  have h64' := h64
  unfold U64MOD at h64'
  have harith2 : add64 A.balance tx.unsigned_tx.value
      = A.balance + tx.unsigned_tx.value := by
    unfold add64 U64MOD
    omega
  refine ⟨(st.put_account { A with balance := add64 (sub64 (sub64 A.balance tx.unsigned_tx.value) tx.unsigned_tx.gas_limit) tx.unsigned_tx.gas_limit }).put_account { A with balance := A.balance + tx.unsigned_tx.value }, ?_, ?_⟩
  · simp only [run_standard_tx, hf, hA, ht, hcode]
    rw [harith2]
  · exact get_account_put_self_at _ _ a hAaddr

/-- C10 witness account. -/
def w10A : PublicAccount := { address := "s", balance := 50, code := [], code_hash := none }

/-- C10 witness pre-state. -/
def w10st : State := State.new.put_account w10A

/-- C10 witness transaction: a self-transfer of 5 with gas limit 10. -/
def w10tx : Transaction :=
  { unsigned_tx :=
      { id := 3, from_ := some "s", to_ := some "s", value := 5,
        data := { tx_type := .Transact, account_data := none }, gas_limit := 10 }
    signature := none }

/-- C10 witness: the self-transfer ends at balance `50 + 5 = 55`. -/
theorem C10_witness :
    w10st.get_account "s" = some w10A ∧
    (∃ st', run_standard_tx w10tx w10st = some st' ∧
      st'.get_account "s"
        = some { w10A with balance := w10A.balance + w10tx.unsigned_tx.value }) :=
  ⟨by rfl,
   C10_self_transfer w10tx w10st "s" w10A rfl rfl (by rfl) rfl rfl
     (by decide) (by decide)⟩
